import Mathlib

/-!
Verification development for the subsai karaoke-subtitle computation core.

The definitions below are a shallow embedding of the Python sources:
  - src/subsai/karaoke_generator.py  (word timing extraction, line grouping,
    karaoke tag rendering, width-bounded wrapping)
  - src/subsai/karaoke_styles.py     (hex colour conversion)
  - src/subsai/video_uniqueness.py   (uniqueness parameter sampling,
    resolution scaling, filter-chain assembly)
  - src/subsai/main.py               (aspect-ratio crop geometry in
    Tools.burn_karaoke_subtitles)

Python floats are embedded as exact rationals (ℚ); Python ints as ℤ/ℕ.
Python int() truncation toward zero is `pyInt`; Python // is Int.fdiv.
-/

namespace Subsai

/-- Python `int(q)` applied to a float/rational: truncation toward zero. -/
def pyInt (q : ℚ) : Int :=
  if q < 0 then ⌈q⌉ else ⌊q⌋

/-- Python `str.strip()`: drop leading and trailing whitespace. -/
def pyStrip (s : String) : String :=
  String.mk (((s.data.dropWhile Char.isWhitespace).reverse.dropWhile Char.isWhitespace).reverse)

/-- One word with its (approximated) start/end timestamps in milliseconds.
Mirrors the dicts `{"word": ..., "start": ..., "end": ...}` built by
`KaraokeGenerator._extract_word_timings`.  (`end` is a Lean keyword, so the
field is named `endMs`.) -/
structure Word where
  word : String
  start : Int
  endMs : Int
deriving DecidableEq

/-- One transcript event (a pysubs2 SSAEvent as consumed by the generator):
text plus start/end in milliseconds. -/
structure SubEvent where
  text : String
  start : Int
  endMs : Int
deriving DecidableEq

/-- Helper for Python `str.split()`: accumulate the current token (reversed)
while scanning; whitespace runs separate tokens and produce no empties. -/
def splitWSAux : List Char → List Char → List String
  | [], acc => if acc.isEmpty then [] else [String.mk acc.reverse]
  | c :: cs, acc =>
    if c.isWhitespace then
      if acc.isEmpty then splitWSAux cs []
      else String.mk acc.reverse :: splitWSAux cs []
    else splitWSAux cs (c :: acc)

/-- Python `str.split()` with no argument: split on whitespace runs,
discarding empty tokens. -/
def pySplit (s : String) : List String := splitWSAux s.data []

/-- The enumerate loop body of `_extract_word_timings`: for token i the word
spans `start + int(i*d)` .. `start + int((i+1)*d)`, `d` being the per-word
duration `(end-start)/n` computed once before the loop. -/
def extractWords (st : Int) (d : ℚ) : Nat → List String → List Word
  | _, [] => []
  | i, t :: ts =>
    ⟨t, st + pyInt ((i : ℚ) * d), st + pyInt (((i : ℚ) + 1) * d)⟩
      :: extractWords st d (i + 1) ts

/-- Per-event part of `KaraokeGenerator._extract_word_timings`: strip the
text, skip events whose text is empty or yields no tokens, then divide the
event duration evenly over the tokens. -/
def extractEvent (e : SubEvent) : List Word :=
  let text := pyStrip e.text
  if text = "" then []
  else
    let toks := pySplit text
    if toks = [] then []
    else extractWords e.start (((e.endMs - e.start : Int) : ℚ) / ((toks.length : Nat) : ℚ)) 0 toks

/-- `KaraokeGenerator._extract_word_timings`: concatenate the per-event word
lists in event order (the Python loop extends one accumulating list). -/
def extractWordTimings : List SubEvent → List Word
  | [] => []
  | e :: es => extractEvent e ++ extractWordTimings es

/-- The whitespace token sequence of a transcript, in order: what the
extraction loop tokenizes each event into. -/
def transcriptTokens : List SubEvent → List String
  | [] => []
  | e :: es => pySplit (pyStrip e.text) ++ transcriptTokens es

/-- The clamp `max(1, min(20, words_per_line))` applied in
`KaraokeGenerator.__init__`. -/
def wordsPerLineClamp (n : Int) : Int := max 1 (min 20 n)

/-- The `should_break` flag of `_group_words_by_lines`: the line is full, or
the candidate word would stretch the line past the duration cap. -/
def shouldBreakFlag (wpl maxDur : Int) (cur : List Word) (clStart : Int) (w : Word) : Bool :=
  (decide ((cur.length : Int) ≥ wpl)) || (!cur.isEmpty && decide (w.endMs - clStart > maxDur))

/-- The loop of `KaraokeGenerator._group_words_by_lines`: `cur` is
`current_line`, `clStart` is `current_line_start`; on a break the current
line is emitted and the word starts a new line, otherwise the word is
appended; the final nonempty line is emitted after the loop. -/
def groupAux (wpl maxDur : Int) : List Word → List Word → Int → List (List Word)
  | [], cur, _ => if cur.isEmpty then [] else [cur]
  | w :: ws, cur, clStart =>
    if shouldBreakFlag wpl maxDur cur clStart w && !cur.isEmpty then
      cur :: groupAux wpl maxDur ws [w] w.start
    else
      groupAux wpl maxDur ws (cur ++ [w]) clStart

/-- `KaraokeGenerator._group_words_by_lines`: empty input gives no lines;
otherwise run the loop with an empty current line whose start is the first
word's start. -/
def groupWordsByLines (wpl maxDur : Int) : List Word → List (List Word)
  | [] => []
  | w :: ws => groupAux wpl maxDur (w :: ws) [] w.start

/-- `KaraokeStyle.get_karaoke_tags`: the progressive-fill tag
`{\kf<duration_cs>}`. -/
def karaokeTag (durationCs : Int) : String :=
  "\x7b\\kf" ++ toString durationCs ++ "\x7d"

/-- One rendered word of `_create_karaoke_tags`: the karaoke tag for
`max(1, (end-start)//10)` centiseconds followed by the word text. -/
def taggedWord (w : Word) : String :=
  karaokeTag (max 1 ((w.endMs - w.start).fdiv 10)) ++ w.word

/-- The `result` list built by the no-wrap loop of `_create_karaoke_tags`:
each tagged word, with a single separating space between consecutive words
(none after the last). -/
def karaokePieces : List Word → List String
  | [] => []
  | [w] => [taggedWord w]
  | w :: v :: ws => taggedWord w :: " " :: karaokePieces (v :: ws)

/-- Per-character width of `_estimate_text_width`: CJK ≈ 1.0×fontsize,
space ≈ 0.3×fontsize, other ≈ 0.6×fontsize. -/
def charWidth (fontsize : Int) (c : Char) : ℚ :=
  if 0x4e00 ≤ c.toNat ∧ c.toNat ≤ 0x9fff then (fontsize : ℚ)
  else if c = ' ' then (fontsize : ℚ) * 3 / 10
  else (fontsize : ℚ) * 6 / 10

/-- `KaraokeGenerator._estimate_text_width`. -/
def estimateTextWidth (fontsize : Int) (text : String) : ℚ :=
  text.data.foldl (fun acc c => acc + charWidth fontsize c) 0

/-- The loop of `_create_karaoke_tags_with_wrap` producing the pieces that
follow the alignment override: possibly a line-break marker, possibly a
space, then the tagged word, threading the running width accumulator. -/
def wrapPiecesAux (fs : Int) (maxW : ℚ) : List Word → Nat → ℚ → List String
  | [], _, _ => []
  | w :: ws, i, curW =>
    let wordW := estimateTextWidth fs w.word
    let spaceW := if 0 < i then estimateTextWidth fs " " else 0
    let brk := decide (0 < i) && decide (maxW < curW + spaceW + wordW)
    let curW1 := if brk then 0 else curW
    let sp := decide (0 < i) && decide ((0 : ℚ) < curW1)
    let curW2 := if sp then curW1 + spaceW else curW1
    (if brk then ["\\N"] else []) ++ (if sp then [" "] else [])
      ++ (taggedWord w :: wrapPiecesAux fs maxW ws (i + 1) (curW2 + wordW))

/-- `KaraokeGenerator._create_karaoke_tags_with_wrap`: alignment override
`{\an2}` followed by the wrapped pieces; width budget is 80% of
`max_line_width_px`. -/
def createKaraokeTagsWithWrap (fs : Int) (maxLineWidthPx : Int) (ws : List Word) : String :=
  if ws = [] then ""
  else String.join ("\x7b\\an2\x7d" :: wrapPiecesAux fs ((maxLineWidthPx : ℚ) * 8 / 10) ws 0 0)

/-- `KaraokeGenerator._create_karaoke_tags`: dispatch to the wrap renderer
when `max_line_width_px` is set and positive, else join the no-wrap pieces. -/
def createKaraokeTags (maxLineWidthPx : Option Int) (fs : Int) (ws : List Word) : String :=
  if ws = [] then ""
  else
    match maxLineWidthPx with
    | some mw => if 0 < mw then createKaraokeTagsWithWrap fs mw ws else String.join (karaokePieces ws)
    | none => String.join (karaokePieces ws)

/-- Hex digit test for Python `int(s, 16)`: 0-9, a-f, A-F (by code point). -/
def isHexDigitChar (c : Char) : Bool :=
  (decide (48 ≤ c.toNat) && decide (c.toNat ≤ 57))
    || (decide (97 ≤ c.toNat) && decide (c.toNat ≤ 102))
    || (decide (65 ≤ c.toNat) && decide (c.toNat ≤ 70))

/-- Numeric value of a hex digit (0 for non-digits; only applied to digits). -/
def hexDigitVal (c : Char) : Nat :=
  if 48 ≤ c.toNat ∧ c.toNat ≤ 57 then c.toNat - 48
  else if 97 ≤ c.toNat ∧ c.toNat ≤ 102 then c.toNat - 87
  else if 65 ≤ c.toNat ∧ c.toNat ≤ 70 then c.toNat - 55
  else 0

/-- Python `int(s, 16)` restricted to the argument shapes arising here:
a nonempty all-hex-digit string parses to its value, anything else raises
ValueError (`none`).  (CPython additionally tolerates surrounding
whitespace, a sign and inner underscores; no theorem below depends on such
inputs.) -/
def pyIntHex16 (s : String) : Option Nat :=
  if !s.data.isEmpty && s.data.all isHexDigitChar then
    some (s.data.foldl (fun a c => 16 * a + hexDigitVal c) 0)
  else none

/-- Python slicing `s[a:b]` for 0 ≤ a ≤ b. -/
def pySlice (s : String) (a b : Nat) : String :=
  String.mk ((s.data.drop a).take (b - a))

/-- Python `s.lstrip('#')`: drop every leading `#`. -/
def pyLstripHash (s : String) : String :=
  String.mk (s.data.dropWhile (fun c => c == '#'))

/-- `KaraokeStyle._hex_to_ass_color`: strip leading `#`, parse the three
two-character slices as hex, and pack `(b << 16) | (g << 8) | r`; a slice
that fails to parse raises ValueError (`none`). -/
def hexToAssColor (hexColor : String) : Option Nat :=
  let t := pyLstripHash hexColor
  match pyIntHex16 (pySlice t 0 2), pyIntHex16 (pySlice t 2 4), pyIntHex16 (pySlice t 4 6) with
  | some r, some g, some b => some ((b <<< 16) ||| (g <<< 8) ||| r)
  | _, _, _ => none

/-! ### video_uniqueness.py -/

/-- The scale-plan dict of `get_resolution_scale_params` (its redundant
`scale_filter`/`scale_ratio` string entries are derived from these fields
and omitted). -/
structure ScaleParams where
  need_scale : Bool
  target_width : Int
  target_height : Int
deriving DecidableEq

/-- `get_resolution_scale_params`: no scaling when the short side already
meets `min_resolution`; otherwise scale uniformly by
`min_resolution / min_side` and floor both dimensions to even. -/
def getResolutionScaleParams (w h minRes : Int) : ScaleParams :=
  let minSide := min w h
  if minSide ≥ minRes then ⟨false, w, h⟩
  else
    let srat : ℚ := (minRes : ℚ) / (minSide : ℚ)
    let tw := pyInt ((w : ℚ) * srat)
    let th := pyInt ((h : ℚ) * srat)
    ⟨true, tw - tw % 2, th - th % 2⟩

/-- The noise stage appended by `build_uniqueness_filters` (source line
168): `f"noise=alls={int(noise*100)}:allf=t"`. -/
def noiseFilterStage (noise : ℚ) : String :=
  "noise=alls=" ++ toString (pyInt (noise * 100)) ++ ":allf=t"

/-- Abstract model of Python's module-level `random` generator: its global
state is a `Nat`; each sampler returns a value and the successor state.
`choiceIdx` models `random.choice` on a sequence of the given length by
returning the chosen index.  The theorems below quantify over this model,
so they hold for any generator behaviour (including the real Mersenne
Twister). -/
structure PyRandom where
  uniform : ℚ → ℚ → Nat → ℚ × Nat
  randint : Int → Int → Nat → Int × Nat
  choiceIdx : Nat → Nat → Nat × Nat

/-- The ambient-environment inputs of `calculate_uniqueness_params`:
`md5head s` models `int(hashlib.md5(s).hexdigest()[:8], 16)`;
`nowTimestampStr` models the `datetime.now().timestamp()` interpolation in
the seed string; `fmtCreation d h` models the strftime of
`datetime.now() - timedelta(days=d, hours=h)`; `entropy` is the fresh state
installed by the final argumentless `random.seed()`. -/
structure UniqEnv where
  md5head : String → Nat
  nowTimestampStr : String
  fmtCreation : Int → Int → String
  entropy : Nat

/-- The `x264_params` sub-dict of the uniqueness profile. -/
structure X264Params where
  me : String
  subme : Int
  ref : Int
deriving DecidableEq

/-- The metadata dict returned by `generate_random_metadata`. -/
structure VideoMetadata where
  creation_time : String
  encoder : String
  title : String
  comment : String
deriving DecidableEq

/-- The params dict returned by `calculate_uniqueness_params`. -/
structure UniquenessProfile where
  noise_strength : ℚ
  saturation : ℚ
  brightness : ℚ
  contrast : ℚ
  crf : Int
  preset : String
  x264_params : X264Params
  audio_bitrate : String
  audio_sample_rate : Int
  metadata : VideoMetadata

/-- `generate_random_metadata`: random 1-30 days and 0-23 hours ago for the
creation time, a random encoder tag from the fixed list, blank title and
comment.  Threads the global generator state. -/
def generateRandomMetadata (R : PyRandom) (env : UniqEnv) (g : Nat) : VideoMetadata × Nat :=
  let dres := R.randint 1 30 g
  let hres := R.randint 0 23 dres.2
  let creationTime := env.fmtCreation dres.1 hres.1
  let encoders := ["Lavf60.3.100", "Lavf59.27.100", "Lavf58.76.100", "Lavf60.16.100", "Lavf59.16.100"]
  let eres := R.choiceIdx encoders.length hres.2
  (⟨creationTime, encoders.getD eres.1 "", "", ""⟩, eres.2)

/-- `calculate_uniqueness_params`: build the seed string
`f"{input_file}_{datetime.now().timestamp()}_{index}"`, seed the global
generator with the first 8 hex digits of its md5 (so the state becomes a
function of the seed alone — modelled as the seed value itself), sample
every field in source order, then reset the generator with the
argumentless `random.seed()` (fresh entropy).  Takes and returns the
process-global generator state `g`. -/
def calculateUniquenessParams (R : PyRandom) (env : UniqEnv) (inputFile : String)
    (index : Int) (g : Nat) : UniquenessProfile × Nat :=
  let seedStr := inputFile ++ "_" ++ env.nowTimestampStr ++ "_" ++ toString index
  let g0 := env.md5head seedStr
  let noise := R.uniform ((8 : ℚ)/10000) ((25 : ℚ)/10000) g0
  let sat := R.uniform ((98 : ℚ)/100) ((102 : ℚ)/100) noise.2
  let bright := R.uniform ((985 : ℚ)/1000) ((1015 : ℚ)/1000) sat.2
  let cont := R.uniform ((99 : ℚ)/100) ((101 : ℚ)/100) bright.2
  let crf := R.randint 15 19 cont.2
  let pres := R.choiceIdx 3 crf.2
  let preset := (["slow", "slower", "veryslow"]).getD pres.1 ""
  let meres := R.choiceIdx 2 pres.2
  let me := (["umh", "hex"]).getD meres.1 ""
  let sures := R.choiceIdx 3 meres.2
  let subme := ([7, 8, 9] : List Int).getD sures.1 0
  let rres := R.choiceIdx 3 sures.2
  let ref := ([3, 4, 5] : List Int).getD rres.1 0
  let abres := R.choiceIdx 3 rres.2
  let audioBitrate := (["192k", "224k", "256k"]).getD abres.1 ""
  let asres := R.choiceIdx 2 abres.2
  let audioSampleRate := ([44100, 48000] : List Int).getD asres.1 0
  let meta := generateRandomMetadata R env asres.2
  (⟨noise.1, sat.1, bright.1, cont.1, crf.1, preset, ⟨me, subme, ref⟩,
    audioBitrate, audioSampleRate, meta.1⟩,
   env.entropy)

/-! ### main.py: aspect-ratio crop geometry in Tools.burn_karaoke_subtitles -/

/-- The crop rectangle of the `crop=W:H:X:Y` filter built in
`burn_karaoke_subtitles`. -/
structure CropFilter where
  w : Int
  h : Int
  x : Int
  y : Int
deriving DecidableEq

/-- Base-10 digit test. -/
def isDigitChar (c : Char) : Bool :=
  decide (48 ≤ c.toNat) && decide (c.toNat ≤ 57)

/-- Numeric value of a decimal digit. -/
def digitVal (c : Char) : Nat := c.toNat - 48

/-- Python `int(s)` restricted to the shapes arising here: a nonempty
all-digit string (with optional leading minus sign) parses; anything else
raises ValueError (`none`).  (CPython also tolerates whitespace, `+` and
inner underscores; no theorem below depends on such inputs.) -/
def pyIntDec (s : String) : Option Int :=
  match s.data with
  | [] => none
  | '-' :: rest =>
    if !rest.isEmpty && rest.all isDigitChar then
      some (-(rest.foldl (fun a c => 10 * a + digitVal c) 0 : Nat))
    else none
  | l =>
    if l.all isDigitChar then
      some ((l.foldl (fun a c => 10 * a + digitVal c) 0 : Nat))
    else none

/-- Python `s.split(':')`: split at every colon, keeping empty parts. -/
def splitColonAux : List Char → List Char → List String
  | [], acc => [String.mk acc.reverse]
  | c :: cs, acc =>
    if c = ':' then String.mk acc.reverse :: splitColonAux cs []
    else splitColonAux cs (c :: acc)

/-- `target_w, target_h = map(int, aspect_ratio.split(':'))`: exactly two
parts, each parsing as an int; otherwise ValueError (`none`). -/
def pyParseAspect (s : String) : Option (Int × Int) :=
  match splitColonAux s.data [] with
  | [a, b] =>
    match pyIntDec a, pyIntDec b with
    | some x, some y => some (x, y)
    | _, _ => none
  | _ => none

/-- The aspect-ratio crop computation of `burn_karaoke_subtitles`
(main.py lines 499-600), given the already-computed scale plan: parse the
target ratio (ValueError/ZeroDivisionError fall back to no crop), skip when
within 1% of the base ratio, compute ideal even dimensions anchored at
`min_resolution`, and either centre-crop (with a possible extra upscale) or
rescale directly to the ideal dimensions.  Returns the possibly-updated
scale plan and the optional crop rectangle. -/
def aspectCropPlan (aspect : String) (sp : ScaleParams) (origW origH minRes : Int) :
    ScaleParams × Option CropFilter :=
  match pyParseAspect aspect with
  | none => (sp, none)
  | some (tw, th) =>
    if th = 0 then (sp, none)   -- ZeroDivisionError computing target_ratio
    else
      let rTarget : ℚ := (tw : ℚ) / (th : ℚ)
      let bw := if sp.need_scale then sp.target_width else origW
      let bh := if sp.need_scale then sp.target_height else origH
      if bh = 0 then (sp, none)   -- ZeroDivisionError computing base_ratio
      else
        let rBase : ℚ := (bw : ℚ) / (bh : ℚ)
        if rTarget = 0 then (sp, none)   -- ZeroDivisionError computing ratio_diff
        else
          let ratioDiff := |rBase - rTarget| / rTarget
          if ratioDiff < 1/100 then (sp, none)
          else
            let iw0 := if rBase > rTarget then minRes else pyInt ((minRes : ℚ) * rTarget)
            let ih0 := if rBase > rTarget then pyInt ((minRes : ℚ) / rTarget) else minRes
            let iw := iw0 - iw0 % 2
            let ih := ih0 - ih0 % 2
            let minSide := min bw bh
            if bw ≥ iw ∧ bh ≥ ih ∧ minSide ≥ minRes then
              if iw ≠ bw ∨ ih ≠ bh then
                if iw > bw ∨ ih > bh then
                  -- unreachable given the guard above; modelled faithfully
                  let scaleX : ℚ := if iw > bw then (iw : ℚ) / (bw : ℚ) else 1
                  let scaleY : ℚ := if ih > bh then (ih : ℚ) / (bh : ℚ) else 1
                  let addScale := max scaleX scaleY
                  let nw0 := pyInt ((bw : ℚ) * addScale)
                  let nh0 := pyInt ((bh : ℚ) * addScale)
                  let nw := nw0 - nw0 % 2
                  let nh := nh0 - nh0 % 2
                  (⟨true, nw, nh⟩, some ⟨iw, ih, (nw - iw).fdiv 2, (nh - ih).fdiv 2⟩)
                else
                  (sp, some ⟨iw, ih, (bw - iw).fdiv 2, (bh - ih).fdiv 2⟩)
              else (sp, none)
            else
              (⟨true, iw, ih⟩, none)

/-- Python `s.lower()`. -/
def pyLower (s : String) : String := String.mk (s.data.map Char.toLower)

/-- The scale-then-crop geometry of `burn_karaoke_subtitles` for a frame of
the given dimensions: compute the scale plan, then (when an aspect ratio is
given and is not "original") the crop plan. -/
def burnCropGeometry (aspect : Option String) (w h minRes : Int) :
    ScaleParams × Option CropFilter :=
  let sp := getResolutionScaleParams w h minRes
  match aspect with
  | none => (sp, none)
  | some a =>
    if a = "" ∨ pyLower a = "original" then (sp, none)
    else aspectCropPlan a sp w h minRes

/-! ## Derived observers and probe instances used by the theorems -/

/-- Spec-side helper (from the spec's packing formula): the value of the
two-hex-digit slice of `t` starting at position `i`. -/
def specHexByte (t : String) (i : Nat) : Nat :=
  (pySlice t i (i + 2)).data.foldl (fun a c => 16 * a + hexDigitVal c) 0

/-- Start of a caption line: its first word's start (`line_words[0]["start"]`). -/
def lineStart : List Word → Int
  | [] => 0
  | w :: _ => w.start

/-- End of a caption line: its last word's end (`line_words[-1]["end"]`). -/
def lineEnd (l : List Word) : Int :=
  match l.getLast? with
  | some w => w.endMs
  | none => 0

/-- A concrete instance of the abstract generator model, used to exhibit
counterexamples: every sampler returns the lower bound and bumps the
state. -/
def probeRandom : PyRandom :=
  ⟨fun a _ s => (a, s + 1), fun a _ s => (a, s + 1), fun _ s => (0, s + 1)⟩

/-- A concrete environment instance for counterexamples: fresh entropy
state 7. -/
def probeEnv : UniqEnv :=
  ⟨fun _ => 42, "1700000000.0", fun _ _ => "2024-01-01T00:00:00", 7⟩

/-! ## Helper lemmas -/

lemma hexDigitVal_lt (c : Char) : hexDigitVal c < 16 := by
  unfold hexDigitVal
  split_ifs with h1 h2 h3 <;> omega

lemma pyIntHex16_pair {a b : Char} (ha : isHexDigitChar a = true) (hb : isHexDigitChar b = true) :
    pyIntHex16 (String.mk [a, b]) = some (16 * hexDigitVal a + hexDigitVal b) := by
  simp [pyIntHex16, ha, hb]

lemma list_six {α : Type} : ∀ (l : List α), l.length = 6 →
    ∃ a b c d e f, l = [a, b, c, d, e, f] := by
  intro l h
  match l with
  | [a, b, c, d, e, f] => exact ⟨a, b, c, d, e, f, rfl⟩
  | [] | [_] | [_, _] | [_, _, _] | [_, _, _, _] | [_, _, _, _, _] => simp at h
  | _ :: _ :: _ :: _ :: _ :: _ :: _ :: _ => simp at h

/-! ## Claim theorems -/

/-- C9: for every valid 6-hex-digit colour string (optional leading `#`),
`_hex_to_ass_color` returns `(B<<16)|(G<<8)|R` — the byte parsed from the
last slice shifted to the top, the first slice in the low byte — and that
value has a zero high byte (is below 2^24); in particular `#FFFFFF`,
`#FF0000`, `#00FF00`, `#0000FF` map to `0x00FFFFFF`, `0x000000FF`,
`0x0000FF00`, `0x00FF0000` respectively. -/
theorem subsai_C9 :
    (∀ s : String,
      (pyLstripHash s).data.length = 6 → (pyLstripHash s).data.all isHexDigitChar = true →
        hexToAssColor s =
            some ((specHexByte (pyLstripHash s) 4 <<< 16) |||
              (specHexByte (pyLstripHash s) 2 <<< 8) ||| specHexByte (pyLstripHash s) 0) ∧
          (specHexByte (pyLstripHash s) 4 <<< 16) |||
              (specHexByte (pyLstripHash s) 2 <<< 8) ||| specHexByte (pyLstripHash s) 0 < 2 ^ 24)
    ∧ hexToAssColor "#FFFFFF" = some 0x00FFFFFF
    ∧ hexToAssColor "#FF0000" = some 0x000000FF
    ∧ hexToAssColor "#00FF00" = some 0x0000FF00
    ∧ hexToAssColor "#0000FF" = some 0x00FF0000 := by
  constructor
  · intro s h6 hall
    obtain ⟨c0, c1, c2, c3, c4, c5, hl⟩ := list_six _ h6
    rw [hl] at hall
    simp only [List.all_cons, List.all_nil, Bool.and_eq_true, Bool.and_true] at hall
    obtain ⟨h0, h1, h2, h3, h4, h5⟩ := hall
    have hs02 : pySlice (pyLstripHash s) 0 2 = String.mk [c0, c1] := by simp [pySlice, hl]
    have hs24 : pySlice (pyLstripHash s) 2 4 = String.mk [c2, c3] := by simp [pySlice, hl]
    have hs46 : pySlice (pyLstripHash s) 4 6 = String.mk [c4, c5] := by simp [pySlice, hl]
    have v0 : specHexByte (pyLstripHash s) 0 = 16 * hexDigitVal c0 + hexDigitVal c1 := by
      simp [specHexByte, hs02]
    have v2 : specHexByte (pyLstripHash s) 2 = 16 * hexDigitVal c2 + hexDigitVal c3 := by
      simp [specHexByte, hs24]
    have v4 : specHexByte (pyLstripHash s) 4 = 16 * hexDigitVal c4 + hexDigitVal c5 := by
      simp [specHexByte, hs46]
    constructor
    · simp only [hexToAssColor, hs02, hs24, hs46, pyIntHex16_pair h0 h1,
        pyIntHex16_pair h2 h3, pyIntHex16_pair h4 h5, v0, v2, v4]
    · have b0 : specHexByte (pyLstripHash s) 0 < 256 := by
        rw [v0]; have := hexDigitVal_lt c0; have := hexDigitVal_lt c1; omega
      have b2 : specHexByte (pyLstripHash s) 2 < 256 := by
        rw [v2]; have := hexDigitVal_lt c2; have := hexDigitVal_lt c3; omega
      have b4 : specHexByte (pyLstripHash s) 4 < 256 := by
        rw [v4]; have := hexDigitVal_lt c4; have := hexDigitVal_lt c5; omega
      have s4 : specHexByte (pyLstripHash s) 4 <<< 16 < 2 ^ 24 := by
        rw [Nat.shiftLeft_eq]; norm_num; omega
      have s2 : specHexByte (pyLstripHash s) 2 <<< 8 < 2 ^ 24 := by
        rw [Nat.shiftLeft_eq]; norm_num; omega
      have s0 : specHexByte (pyLstripHash s) 0 < 2 ^ 24 := by norm_num; omega
      exact Nat.or_lt_two_pow (Nat.or_lt_two_pow s4 s2) s0
  · exact ⟨by decide, by decide, by decide, by decide⟩

/-- C9 witness: the general statement applied at the valid colour string
`#123456`. -/
theorem subsai_C9_witness : hexToAssColor "#123456" = some 0x563412 := by
  have h := (subsai_C9.1 "#123456" (by decide) (by decide)).1
  rw [h]; decide

/-- C3 counterexample: `#FFFFFF00` (nine characters after `#`) and `#ABCDE`
(five) are malformed — not exactly six hex digits — yet `_hex_to_ass_color`
silently succeeds on both instead of raising, refuting the claim that every
malformed colour string fails. -/
theorem subsai_C3_counterexample :
    ((pyLstripHash "#FFFFFF00").data.length ≠ 6 ∧ hexToAssColor "#FFFFFF00" = some 0x00FFFFFF)
    ∧ ((pyLstripHash "#ABCDE").data.length ≠ 6 ∧ hexToAssColor "#ABCDE" = some 0x0ECDAB) := by
  decide

/-- C3 amended: a malformed colour string fails with the error propagated
(never defaulted) whenever it provides at most four characters after the
leading `#`s — the blue slice is then empty and `int(..., 16)` raises; but
a malformed string whose first five or six characters parse as hex digits
(extra characters are ignored) is silently accepted. -/
theorem subsai_C3_amended : ∀ s : String, (pyLstripHash s).data.length ≤ 4 →
    hexToAssColor s = none := by
  intro s h
  have hb : pySlice (pyLstripHash s) 4 6 = String.mk [] := by
    simp only [pySlice]
    rw [List.drop_eq_nil_of_le h]
    rfl
  have hn : pyIntHex16 (String.mk []) = none := rfl
  simp only [hexToAssColor, hb, hn]
  cases pyIntHex16 (pySlice (pyLstripHash s) 0 2) <;>
    cases pyIntHex16 (pySlice (pyLstripHash s) 2 4) <;> rfl

/-- C3 witness: the amended statement applied at the malformed string
`#FFF`. -/
theorem subsai_C3_witness : hexToAssColor "#FFF" = none :=
  subsai_C3_amended "#FFF" (by decide)

/-- C2: for every noise strength in the sampled range [0.0008, 0.0025],
the noise stage built by `build_uniqueness_filters` is the constant string
`noise=alls=0:allf=t` — `int(noise*100)` truncates to 0. -/
theorem subsai_C2 : ∀ q : ℚ, (8 : ℚ) / 10000 ≤ q → q ≤ (25 : ℚ) / 10000 →
    noiseFilterStage q = "noise=alls=0:allf=t" := by
  intro q hlo hhi
  have hq0 : (0 : ℚ) ≤ q * 100 := by nlinarith
  have hq1 : q * 100 < 1 := by nlinarith
  have hz : pyInt (q * 100) = 0 := by
    rw [pyInt, if_neg (not_lt.mpr hq0)]
    exact Int.floor_eq_zero_iff.mpr ⟨hq0, hq1⟩
  rw [noiseFilterStage, hz]
  rfl

/-- C2 witness: the statement applied at the concrete noise strength
0.001. -/
theorem subsai_C2_witness : noiseFilterStage ((1 : ℚ) / 1000) = "noise=alls=0:allf=t" :=
  subsai_C2 ((1 : ℚ) / 1000) (by norm_num) (by norm_num)

/-- C4: two invocations of `calculate_uniqueness_params` with identical
source identifier and batch index at the same instant (same environment:
same md5, same timestamp string, same creation-time formatter) return
identical profiles, whatever the incoming global generator states were —
the function re-seeds the generator from the locally derived seed before
sampling. -/
theorem subsai_C4 : ∀ (R : PyRandom) (env : UniqEnv) (inputFile : String) (index : Int)
    (g1 g2 : Nat),
    (calculateUniquenessParams R env inputFile index g1).1 =
      (calculateUniquenessParams R env inputFile index g2).1 :=
  fun _ _ _ _ _ _ => rfl

/-- C10 counterexample: `calculate_uniqueness_params` does mutate the
process-global generator state — starting from global state 0 the state
after the call differs from 0 (the call seeds the global generator and
finally re-seeds it from fresh entropy), refuting the claim that it never
reads or mutates process-global random-generator state. -/
theorem subsai_C10_counterexample :
    (calculateUniquenessParams probeRandom probeEnv "video.mp4" 0 0).2 ≠ 0 := by
  decide

/-- C10 amended: each invocation re-seeds the process-global generator from
the locally computed md5 seed, samples, and then re-seeds it from fresh
entropy — so the global state after the call is the fresh-entropy state
(global state IS mutated), while the sampled profile never depends on the
incoming global state. -/
theorem subsai_C10_amended : ∀ (R : PyRandom) (env : UniqEnv) (inputFile : String)
    (index : Int) (g : Nat),
    (calculateUniquenessParams R env inputFile index g).2 = env.entropy ∧
      (calculateUniquenessParams R env inputFile index g).1 =
        (calculateUniquenessParams R env inputFile index env.entropy).1 :=
  fun _ _ _ _ _ => ⟨rfl, rfl⟩

/-- Short side of a scaled dimension: if `0 < m`, `0 < s ≤ x`, then
`int(x * (m/s)) ≥ m` (exact rational arithmetic). -/
lemma pyInt_scale_ge {m s x : Int} (hm : 0 < m) (hs : 0 < s) (hsx : s ≤ x) :
    m ≤ pyInt ((x : ℚ) * ((m : ℚ) / (s : ℚ))) := by
  have hs0 : (0 : ℚ) < (s : ℚ) := by exact_mod_cast hs
  have hm0 : (0 : ℚ) < (m : ℚ) := by exact_mod_cast hm
  have hx0 : (s : ℚ) ≤ (x : ℚ) := by exact_mod_cast hsx
  have hq : (m : ℚ) ≤ (x : ℚ) * ((m : ℚ) / (s : ℚ)) := by
    rw [← mul_div_assoc, le_div_iff₀ hs0]
    nlinarith
  rw [pyInt, if_neg (not_lt.mpr (le_trans hm0.le hq))]
  exact Int.le_floor.mpr hq

/-- C5 counterexample: `get_resolution_scale_params` is not idempotent for
every `min_resolution`.  With an odd `min_resolution = 1081` and a 100×100
frame, the first pass scales to 1080×1080 (the even-floor drops one pixel
below the target), so re-running on the output still reports
`need_scale = true`. -/
theorem subsai_C5_counterexample :
    (getResolutionScaleParams
      (getResolutionScaleParams 100 100 1081).target_width
      (getResolutionScaleParams 100 100 1081).target_height 1081).need_scale = true := by
  have h1 : getResolutionScaleParams 100 100 1081 = ⟨true, 1080, 1080⟩ := by
    norm_num [getResolutionScaleParams, pyInt]
  rw [h1]
  norm_num [getResolutionScaleParams]

/-- C5 amended: `get_resolution_scale_params` is idempotent — re-running it
on the target dimensions of its own output yields `need_scale = false` —
for every positive frame and every positive EVEN `min_resolution` (the
default 1080 is even; odd values fail by the counterexample). -/
theorem subsai_C5_amended : ∀ w h m : Int, 0 < w → 0 < h → 0 < m → m % 2 = 0 →
    (getResolutionScaleParams
      (getResolutionScaleParams w h m).target_width
      (getResolutionScaleParams w h m).target_height m).need_scale = false := by
  intro w h m hw hh hm hme
  by_cases hbig : min w h ≥ m
  · have h1 : getResolutionScaleParams w h m = ⟨false, w, h⟩ := by
      simp only [getResolutionScaleParams]
      rw [if_pos hbig]
    simp only [h1]
  · push_neg at hbig
    have hs : 0 < min w h := lt_min hw hh
    have htw := pyInt_scale_ge hm hs (min_le_left w h)
    have hth := pyInt_scale_ge hm hs (min_le_right w h)
    have h1 : getResolutionScaleParams w h m =
        ⟨true,
          pyInt ((w : ℚ) * ((m : ℚ) / ((min w h : Int) : ℚ))) -
            pyInt ((w : ℚ) * ((m : ℚ) / ((min w h : Int) : ℚ))) % 2,
          pyInt ((h : ℚ) * ((m : ℚ) / ((min w h : Int) : ℚ))) -
            pyInt ((h : ℚ) * ((m : ℚ) / ((min w h : Int) : ℚ))) % 2⟩ := by
      simp only [getResolutionScaleParams]
      rw [if_neg (not_le.mpr hbig)]
    simp only [h1]
    simp only [getResolutionScaleParams]
    rw [if_pos]
    apply le_min <;> omega

/-- C5 witness: the amended statement applied at a 100×200 frame with the
even default `min_resolution = 1080`. -/
theorem subsai_C5_witness :
    (getResolutionScaleParams
      (getResolutionScaleParams 100 200 1080).target_width
      (getResolutionScaleParams 100 200 1080).target_height 1080).need_scale = false :=
  subsai_C5_amended 100 200 1080 (by decide) (by decide) (by decide) (by decide)

/-! ## Line grouping invariants (C7, C8) -/

lemma lineStart_append_of_ne (l : List Word) (w : Word) (h : l ≠ []) :
    lineStart (l ++ [w]) = lineStart l := by
  cases l with
  | nil => exact absurd rfl h
  | cons a t => rfl

lemma lineEnd_concat (l : List Word) (w : Word) : lineEnd (l ++ [w]) = w.endMs := by
  simp [lineEnd]

/-- The grouping-loop invariant: every line emitted by `groupAux` is
nonempty, has at most `wpl` words, and — when it has at least two words —
spans at most `maxDur` milliseconds.  The two extra hypotheses track the
loop state: an empty current line only occurs at the very start (where
`clStart` is the first word's start), and a nonempty current line already
satisfies the invariant relative to `clStart`. -/
lemma groupAux_invariant (wpl maxDur : Int) (hwpl : 1 ≤ wpl) :
    ∀ (ws cur : List Word) (clStart : Int),
      (cur = [] → ∀ v ws2, ws = v :: ws2 → clStart = v.start) →
      (cur ≠ [] → (cur.length : Int) ≤ wpl ∧ lineStart cur = clStart ∧
        (2 ≤ cur.length → lineEnd cur - clStart ≤ maxDur)) →
      ∀ l ∈ groupAux wpl maxDur ws cur clStart,
        l ≠ [] ∧ (l.length : Int) ≤ wpl ∧ (2 ≤ l.length → lineEnd l - lineStart l ≤ maxDur) := by
  intro ws
  induction ws with
  | nil =>
    intro cur clStart hemp hinv l hl
    simp only [groupAux] at hl
    by_cases hc : cur.isEmpty
    · simp [hc] at hl
    · rw [if_neg hc] at hl
      have hne : cur ≠ [] := by simpa [List.isEmpty_iff] using hc
      rcases List.mem_singleton.mp hl with rfl
      obtain ⟨h1, h2, h3⟩ := hinv hne
      exact ⟨hne, h1, fun h2l => by rw [h2]; exact h3 h2l⟩
  | cons w ws ih =>
    intro cur clStart hemp hinv l hl
    simp only [groupAux] at hl
    by_cases hbrk : (shouldBreakFlag wpl maxDur cur clStart w && !cur.isEmpty) = true
    · rw [if_pos hbrk] at hl
      have hne : cur ≠ [] := by
        have := (Bool.and_eq_true _ _).mp hbrk
        simpa [List.isEmpty_iff] using this.2
      rcases List.mem_cons.mp hl with rfl | hl
      · obtain ⟨h1, h2, h3⟩ := hinv hne
        exact ⟨hne, h1, fun h2l => by rw [h2]; exact h3 h2l⟩
      · refine ih [w] w.start ?_ ?_ l hl
        · intro habs; cases habs
        · intro _
          refine ⟨by simpa using hwpl, rfl, ?_⟩
          intro habs; simp at habs
    · rw [if_neg hbrk] at hl
      refine ih (cur ++ [w]) clStart ?_ ?_ l hl
      · intro habs; simp at habs
      · intro _
        by_cases hcur : cur = []
        · subst hcur
          have hst : clStart = w.start := hemp rfl w ws rfl
          refine ⟨by simpa using hwpl, by simp [lineStart, hst], ?_⟩
          intro habs; simp at habs
        · have hcne : (!cur.isEmpty) = true := by simpa [List.isEmpty_iff] using hcur
          have hsb : shouldBreakFlag wpl maxDur cur clStart w = false := by
            rcases Bool.eq_false_or_eq_true (shouldBreakFlag wpl maxDur cur clStart w) with h | h
            · exact absurd (by rw [h, hcne]; rfl) hbrk
            · exact h
          have hlen : ¬ ((cur.length : Int) ≥ wpl) := by
            intro hge
            have : shouldBreakFlag wpl maxDur cur clStart w = true := by
              unfold shouldBreakFlag
              simp [hge]
            rw [this] at hsb; cases hsb
          have hdur : w.endMs - clStart ≤ maxDur := by
            by_contra hgt
            push_neg at hgt
            have : shouldBreakFlag wpl maxDur cur clStart w = true := by
              unfold shouldBreakFlag
              simp [hcne, hgt]
            rw [this] at hsb; cases hsb
          obtain ⟨h1, h2, _⟩ := hinv hcur
          push_neg at hlen
          refine ⟨?_, ?_, ?_⟩
          · rw [List.length_append, List.length_singleton]
            push_cast
            omega
          · rw [lineStart_append_of_ne cur w hcur]; exact h2
          · intro _
            rw [lineEnd_concat]
            omega

/-- C7: every caption line produced by `_group_words_by_lines` (with the
`__init__`-clamped words-per-line bound) has between 1 and
`max(1, min(20, words_per_line))` words, and a line of at least two words
spans at most `max_line_duration_ms`; hence a line exceeding the duration
cap is a single word, whose own duration is the line's duration. -/
theorem subsai_C7 : ∀ (wpl maxDur : Int) (ws : List Word),
    ∀ l ∈ groupWordsByLines (wordsPerLineClamp wpl) maxDur ws,
      1 ≤ l.length ∧ (l.length : Int) ≤ wordsPerLineClamp wpl ∧
        (2 ≤ l.length → lineEnd l - lineStart l ≤ maxDur) := by
  intro wpl maxDur ws l hl
  have hwpl : 1 ≤ wordsPerLineClamp wpl := le_max_left 1 _
  cases ws with
  | nil => simp [groupWordsByLines] at hl
  | cons w ws2 =>
    have hmain := groupAux_invariant (wordsPerLineClamp wpl) maxDur hwpl (w :: ws2) [] w.start
      ?_ ?_ l hl
    · obtain ⟨hne, hlen, hdur⟩ := hmain
      exact ⟨List.length_pos.mpr hne, hlen, hdur⟩
    · intro _ v ws3 hcons
      rw [(List.cons.injEq _ _ _ _).mp hcons |>.1]
    · intro habs; exact absurd rfl habs

/-- C7 witness: the statement applied to a concrete two-word transcript
with `words_per_line = 1`, at its first produced line. -/
theorem subsai_C7_witness :
    1 ≤ ([(⟨"a", 0, 10⟩ : Word)]).length ∧
      (([(⟨"a", 0, 10⟩ : Word)]).length : Int) ≤ wordsPerLineClamp 1 ∧
      (2 ≤ ([(⟨"a", 0, 10⟩ : Word)]).length →
        lineEnd [(⟨"a", 0, 10⟩ : Word)] - lineStart [(⟨"a", 0, 10⟩ : Word)] ≤ 1000) :=
  subsai_C7 1 1000 [⟨"a", 0, 10⟩, ⟨"b", 10, 20⟩] [⟨"a", 0, 10⟩] (by decide)

/-! ## Word conservation (C8) -/

lemma groupAux_flatten (wpl maxDur : Int) :
    ∀ (ws cur : List Word) (clStart : Int),
      (groupAux wpl maxDur ws cur clStart).flatten = cur ++ ws := by
  intro ws
  induction ws with
  | nil =>
    intro cur clStart
    by_cases hc : cur.isEmpty
    · simp only [groupAux, if_pos hc]
      simp [List.isEmpty_iff.mp hc]
    · simp only [groupAux, if_neg hc]
      simp
  | cons w ws ih =>
    intro cur clStart
    simp only [groupAux]
    by_cases hbrk : (shouldBreakFlag wpl maxDur cur clStart w && !cur.isEmpty) = true
    · rw [if_pos hbrk]
      simp [ih]
    · rw [if_neg hbrk]
      simp [ih]

lemma groupWordsByLines_flatten (wpl maxDur : Int) (ws : List Word) :
    (groupWordsByLines wpl maxDur ws).flatten = ws := by
  cases ws with
  | nil => rfl
  | cons w ws2 => exact groupAux_flatten wpl maxDur (w :: ws2) [] w.start

lemma extractWords_map_word (st : Int) (d : ℚ) :
    ∀ (i : Nat) (ts : List String), (extractWords st d i ts).map Word.word = ts := by
  intro i ts
  induction ts generalizing i with
  | nil => rfl
  | cons t ts ih => simp [extractWords, ih]

lemma extractEvent_map_word (e : SubEvent) :
    (extractEvent e).map Word.word = pySplit (pyStrip e.text) := by
  rw [extractEvent]
  by_cases ht : pyStrip e.text = ""
  · rw [if_pos ht, ht]
    rfl
  · rw [if_neg ht]
    by_cases htoks : pySplit (pyStrip e.text) = []
    · rw [if_pos htoks, htoks]
      rfl
    · rw [if_neg htoks]
      exact extractWords_map_word _ _ 0 _

lemma extractWordTimings_map_word (events : List SubEvent) :
    (extractWordTimings events).map Word.word = transcriptTokens events := by
  induction events with
  | nil => rfl
  | cons e es ih =>
    simp only [extractWordTimings, transcriptTokens, List.map_append, ih,
      extractEvent_map_word]

lemma flatten_map_map (f : Word → String) :
    ∀ (L : List (List Word)), (L.map (List.map f)).flatten = L.flatten.map f := by
  intro L
  induction L with
  | nil => rfl
  | cons a t ih =>
    simp only [List.map_cons, List.flatten_cons, List.map_append, ih]

/-- No-wrap rendering is the interspersal of tagged words: the pieces list
built by the loop is exactly the tagged words separated by single spaces. -/
lemma karaokePieces_intersperse :
    ∀ ws : List Word, karaokePieces ws = (ws.map taggedWord).intersperse " " := by
  intro ws
  induction ws with
  | nil => rfl
  | cons w tail ih =>
    cases tail with
    | nil => rfl
    | cons v rest =>
      rw [karaokePieces, ih]
      simp only [List.map_cons]
      rw [List.intersperse_cons_cons]

lemma createKaraokeTags_nowrap (fs : Int) (l : List Word) :
    createKaraokeTags none fs l = String.join ((l.map taggedWord).intersperse " ") := by
  rw [createKaraokeTags, ← karaokePieces_intersperse]
  by_cases hl : l = []
  · rw [if_pos hl, hl]
    rfl
  · rw [if_neg hl]

/-- A tagged word always starts with the 5-or-more-character tag
`{\kf<d>}`, so it is never the line-break marker or the separating space. -/
lemma taggedWord_ne_markers (w : Word) : taggedWord w ≠ "\\N" ∧ taggedWord w ≠ " " := by
  constructor <;> intro h <;> have hlen := congrArg String.length h <;>
    · rw [taggedWord, karaokeTag] at hlen
      rw [String.length_append, String.length_append, String.length_append] at hlen
      have h1 : ("\x7b\\kf" : String).length = 4 := by decide
      have h2 : ("\x7d" : String).length = 1 := by decide
      first
        | (have h3 : ("\\N" : String).length = 2 := by decide
           rw [h1, h2, h3] at hlen; omega)
        | (have h3 : (" " : String).length = 1 := by decide
           rw [h1, h2, h3] at hlen; omega)

/-- The wrap-mode pieces, with the injected break markers and spaces
filtered out, are exactly the tagged words in order: wrapping neither
drops, duplicates nor reorders words. -/
lemma wrapPiecesAux_filter (fs : Int) (maxW : ℚ) :
    ∀ (ws : List Word) (i : Nat) (curW : ℚ),
      (wrapPiecesAux fs maxW ws i curW).filter
          (fun p => !(p == "\\N") && !(p == " ")) = ws.map taggedWord := by
  intro ws
  induction ws with
  | nil => intro i curW; rfl
  | cons w tail ih =>
    intro i curW
    obtain ⟨hn1, hn2⟩ := taggedWord_ne_markers w
    rw [wrapPiecesAux]
    simp only [List.filter_append]
    rw [List.map_cons]
    have hkeep : (!(taggedWord w == "\\N") && !(taggedWord w == " ")) = true := by
      simp [hn1, hn2]
    have hbrkf : ∀ b : Bool, (if b then ["\\N"] else []).filter
        (fun p => !(p == "\\N") && !(p == " ")) = [] := by
      intro b; cases b <;> simp
    have hspf : ∀ b : Bool, (if b then [" "] else []).filter
        (fun p => !(p == "\\N") && !(p == " ")) = [] := by
      intro b; cases b <;> simp
    rw [hbrkf, hspf, List.filter_cons, if_pos hkeep, ih]
    rfl

/-- C8: word conservation.  (a) Concatenating the word texts across all
caption lines produced by extraction + grouping, in order, is exactly the
whitespace token sequence of the transcript.  (b) For every produced line,
the no-wrap rendering is the tagged words joined with single spaces, and
the wrap-mode pieces with break markers/spaces removed are the tagged words
in order — so rendering injects tags, spaces, break markers and the
alignment override but never drops, duplicates or reorders a word. -/
theorem subsai_C8 : ∀ (events : List SubEvent) (wpl maxDur : Int),
    ((groupWordsByLines (wordsPerLineClamp wpl) maxDur (extractWordTimings events)).map
        (fun l => l.map Word.word)).flatten = transcriptTokens events
    ∧ ∀ l ∈ groupWordsByLines (wordsPerLineClamp wpl) maxDur (extractWordTimings events),
        ∀ fs mw : Int,
          createKaraokeTags none fs l = String.join ((l.map taggedWord).intersperse " ")
          ∧ (wrapPiecesAux fs ((mw : ℚ) * 8 / 10) l 0 0).filter
              (fun p => !(p == "\\N") && !(p == " ")) = l.map taggedWord := by
  intro events wpl maxDur
  constructor
  · rw [flatten_map_map, groupWordsByLines_flatten, extractWordTimings_map_word]
  · intro l _ fs mw
    exact ⟨createKaraokeTags_nowrap fs l, wrapPiecesAux_filter fs _ l 0 0⟩

/-! ## Word timing extraction (C6) -/

lemma extractWords_getElem (st : Int) (d : ℚ) :
    ∀ (ts : List String) (i j : Nat),
      (extractWords st d i ts)[j]? =
        ts[j]?.map (fun t =>
          (⟨t, st + pyInt (((i + j : Nat) : ℚ) * d),
              st + pyInt ((((i + j : Nat) : ℚ) + 1) * d)⟩ : Word)) := by
  intro ts
  induction ts with
  | nil => intro i j; simp [extractWords]
  | cons t ts ih =>
    intro i j
    cases j with
    | zero => simp [extractWords]
    | succ j =>
      rw [extractWords]
      simp only [List.getElem?_cons_succ]
      rw [ih (i + 1) j]
      have hix : i + 1 + j = i + (j + 1) := by omega
      rw [hix]

/-- C6: word timing extraction divides each event's duration evenly with
floor rounding — the i-th token of an event (with `start ≤ end`) becomes a
word spanning `start + ⌊i·duration/n⌋ .. start + ⌊(i+1)·duration/n⌋` — and
on the event `{0, 3000, "Hello world this is a test"}` with
`words_per_line = 5` and `max_line_duration_ms = 5000` the pipeline yields
two lines: words 1-5 spanning 0-2500 ms and "test" spanning 2500-3000 ms. -/
theorem subsai_C6 :
    (∀ (e : SubEvent), e.start ≤ e.endMs → ∀ i : Nat,
      (extractEvent e)[i]? = (pySplit (pyStrip e.text))[i]?.map (fun t =>
        (⟨t, e.start + ⌊(i : ℚ) * ((e.endMs - e.start : Int) : ℚ) /
                ((pySplit (pyStrip e.text)).length : ℚ)⌋,
            e.start + ⌊((i : ℚ) + 1) * ((e.endMs - e.start : Int) : ℚ) /
                ((pySplit (pyStrip e.text)).length : ℚ)⌋⟩ : Word)))
    ∧ groupWordsByLines (wordsPerLineClamp 5) 5000
        (extractWordTimings [⟨"Hello world this is a test", 0, 3000⟩]) =
        [[⟨"Hello", 0, 500⟩, ⟨"world", 500, 1000⟩, ⟨"this", 1000, 1500⟩,
          ⟨"is", 1500, 2000⟩, ⟨"a", 2000, 2500⟩], [⟨"test", 2500, 3000⟩]] := by
  constructor
  · intro e he i
    have hdur : (0 : ℚ) ≤ ((e.endMs - e.start : Int) : ℚ) := by
      have h0 : (0 : Int) ≤ e.endMs - e.start := by omega
      exact_mod_cast h0
    rw [extractEvent]
    by_cases ht : pyStrip e.text = ""
    · rw [if_pos ht, ht]
      simp [pySplit, splitWSAux]
    · rw [if_neg ht]
      by_cases htoks : pySplit (pyStrip e.text) = []
      · rw [if_pos htoks, htoks]
        simp
      · rw [if_neg htoks, extractWords_getElem]
        have key : ∀ k : ℚ, 0 ≤ k →
            pyInt (k * (((e.endMs - e.start : Int) : ℚ) /
                ((pySplit (pyStrip e.text)).length : ℚ))) =
              ⌊k * ((e.endMs - e.start : Int) : ℚ) /
                ((pySplit (pyStrip e.text)).length : ℚ)⌋ := by
          intro k hk
          rw [mul_div_assoc, pyInt, if_neg (not_lt.mpr (by positivity))]
        cases hx : (pySplit (pyStrip e.text))[i]? with
        | none => rfl
        | some t =>
          simp only [Option.map_some']
          have hzi : ((0 + i : Nat) : ℚ) = (i : ℚ) := by norm_num
          rw [hzi, key (i : ℚ) (by positivity), key ((i : ℚ) + 1) (by positivity)]
  · have hs : pyStrip "Hello world this is a test" = "Hello world this is a test" := by decide
    have ht : pySplit "Hello world this is a test" =
        ["Hello", "world", "this", "is", "a", "test"] := by decide
    have hE : extractWordTimings [⟨"Hello world this is a test", 0, 3000⟩] =
        [⟨"Hello", 0, 500⟩, ⟨"world", 500, 1000⟩, ⟨"this", 1000, 1500⟩,
         ⟨"is", 1500, 2000⟩, ⟨"a", 2000, 2500⟩, ⟨"test", 2500, 3000⟩] := by
      simp only [extractWordTimings, extractEvent, hs, ht]
      norm_num [extractWords, pyInt]
      decide
    rw [hE]
    decide

/-- C6 witness: the general statement applied to the concrete event
`{0, 100, "a b"}` at token index 0 (the first word spans 0-50 ms). -/
theorem subsai_C6_witness : (extractEvent ⟨"a b", 0, 100⟩)[0]? = some ⟨"a", 0, 50⟩ := by
  have h := subsai_C6.1 ⟨"a b", 0, 100⟩ (by norm_num) 0
  have hsp : pyStrip ((⟨"a b", 0, 100⟩ : SubEvent).text) = "a b" := by decide
  have hs : pySplit "a b" = ["a", "b"] := by decide
  rw [h, hsp, hs]
  push_cast
  norm_num

/-- C8 witness: the renderer part of the statement applied to the line
produced from the transcript `[{0, 1000, "hi there"}]`. -/
theorem subsai_C8_witness :
    createKaraokeTags none 48 [⟨"hi", 0, 500⟩, ⟨"there", 500, 1000⟩] =
      String.join ((([(⟨"hi", 0, 500⟩ : Word), ⟨"there", 500, 1000⟩].map taggedWord)).intersperse " ") := by
  have hs : pyStrip "hi there" = "hi there" := by decide
  have ht : pySplit "hi there" = ["hi", "there"] := by decide
  have hE : extractWordTimings [⟨"hi there", 0, 1000⟩] =
      [⟨"hi", 0, 500⟩, ⟨"there", 500, 1000⟩] := by
    simp only [extractWordTimings, extractEvent, hs, ht]
    norm_num [extractWords, pyInt]
    decide
  have hmem : [(⟨"hi", 0, 500⟩ : Word), ⟨"there", 500, 1000⟩] ∈
      groupWordsByLines (wordsPerLineClamp 10) 5000
        (extractWordTimings [⟨"hi there", 0, 1000⟩]) := by
    rw [hE]; decide
  exact ((subsai_C8 [⟨"hi there", 0, 1000⟩] 10 5000).2 _ hmem 48 500).1

/-! ## Aspect-ratio crop geometry (C1) -/

/-- C1 (code evaluated at the claim's input): for a 1920×1080 frame, target
aspect `"9:16"` and `min_resolution = 1080`, the code computes ideal
dimensions 1080×1920, which do not fit inside the base frame, so it skips
cropping and rescales (anamorphically) to 1080×1920 — it does NOT produce
the 608×1080 centre crop the claim (and the repo's own
test_aspect_ratio_crop.py) expects. -/
theorem subsai_C1_eval :
    burnCropGeometry (some "9:16") 1920 1080 1080 = (⟨true, 1080, 1920⟩, none)
    ∧ (burnCropGeometry (some "9:16") 1920 1080 1080).2 ≠ some ⟨608, 1080, 656, 0⟩ := by
  have h : burnCropGeometry (some "9:16") 1920 1080 1080 = (⟨true, 1080, 1920⟩, none) := by
    have hp : pyParseAspect "9:16" = some (9, 16) := by decide
    simp only [burnCropGeometry, getResolutionScaleParams, aspectCropPlan, hp]
    norm_num [pyInt]
    rw [if_neg (by decide),
      if_neg (by rw [abs_of_pos (by norm_num : (0 : ℚ) < 175 / 144)]; norm_num)]
  refine ⟨h, ?_⟩
  rw [h]
  simp

end Subsai
